import Mathlib

/-!
Verification of fraglevelinfo.py, a script that estimates Linux memory
fragmentation from the per-zone free-page-count-by-order histogram in
/proc/buddyinfo.

The script is embedded shallowly:

* Python strings become Lean `String` / `List Char`; the relevant Python
  string primitives (split on a separator, whitespace split, int parsing,
  str.center) are modelled by executable Lean functions with the same
  semantics.
* Python float arithmetic on the fragmentation ratios is modelled by exact
  rational arithmetic (`ℚ`).  All numeric claims about the ratios carry an
  explicit 1e-9 tolerance, far above double-precision rounding error, and
  the percentage renderings exercised below are far from rounding ties, so
  the rational model and the float computation agree on every property
  proved here.
* Python exceptions (ValueError from unpacking or int(), IndexError from
  indexing the token list, ZeroDivisionError from the ratio division)
  become an `Except` error monad; an exception aborts the whole run, which
  matches the script because its dictionary is discarded when an exception
  propagates.
-/

namespace FragLevelInfo

/-- The exception classes the script can raise while parsing and computing. -/
inductive PyError where
  /-- ValueError: raised by tuple unpacking of line.split(",") when the
  number of comma-separated fields is not exactly two, and by int() on a
  malformed token. -/
  | valueError
  /-- IndexError: raised by frag_info.split()[1] when fewer than two
  whitespace-separated tokens follow the comma. -/
  | indexError
  /-- ZeroDivisionError: raised by the ratio division when the total free
  page count of a zone is zero. -/
  | zeroDivisionError
deriving DecidableEq

deriving instance DecidableEq for Except

/-- Characters treated as whitespace by Python str.split() with no
arguments: space, tab, newline, carriage return, vertical tab, form feed. -/
def pyIsSpace (c : Char) : Bool :=
  c = ' ' || c = '\t' || c = '\n' || c = '\r' || c = '\x0b' || c = '\x0c'

/-- Python str.split(sep) for a one-character separator: cut the character
list at every occurrence of the separator, keeping empty pieces.  The empty
string yields one empty piece, as in Python. -/
def splitSep (sep : Char) : List Char → List (List Char)
  | [] => [[]]
  | c :: cs =>
    if c = sep then
      [] :: splitSep sep cs
    else
      match splitSep sep cs with
      | t :: ts => (c :: t) :: ts
      | [] => [[c]]

/-- Cut a character list at every whitespace character, keeping empty
pieces (helper for the no-argument Python str.split()). -/
def splitWsRaw : List Char → List (List Char)
  | [] => [[]]
  | c :: cs =>
    if pyIsSpace c then
      [] :: splitWsRaw cs
    else
      match splitWsRaw cs with
      | t :: ts => (c :: t) :: ts
      | [] => [[c]]

/-- Python str.split() with no arguments: split on runs of whitespace and
drop the empty pieces. -/
def pySplitWs (cs : List Char) : List (List Char) :=
  (splitWsRaw cs).filter (fun t => ¬ t.isEmpty)

/-- Numeric value of a list of decimal digit characters. -/
def digitsVal (ds : List Char) : Nat :=
  ds.foldl (fun a c => 10 * a + (c.toNat - 48)) 0

/-- Python int(token) on a whitespace-free token: an optional sign followed
by at least one decimal digit; anything else raises ValueError. -/
def pyInt (cs : List Char) : Except PyError Int :=
  match cs with
  | '-' :: ds =>
    if ds ≠ [] ∧ ds.all Char.isDigit then .ok (-(digitsVal ds : Int))
    else .error .valueError
  | '+' :: ds =>
    if ds ≠ [] ∧ ds.all Char.isDigit then .ok (digitsVal ds : Int)
    else .error .valueError
  | ds =>
    if ds ≠ [] ∧ ds.all Char.isDigit then .ok (digitsVal ds : Int)
    else .error .valueError

/-- The accumulation loop
for order, free_count in enumerate(free_pages): total += (2**order) * free_count. -/
def totalFreePages (free_pages : List Int) : Int :=
  free_pages.enum.foldl (fun acc oc => acc + 2 ^ oc.1 * oc.2) 0

/-- The inner accumulation loop over free_pages[order:], where the running
index is offset by the starting order:
for o2, c2 in enumerate(free_pages[order:]): acc += (2**(o2 + order)) * c2. -/
def pagesAtOrAbove (free_pages : List Int) (order : Nat) : Int :=
  (free_pages.drop order).enum.foldl (fun acc oc => acc + 2 ^ (oc.1 + order) * oc.2) 0

/-- The ratio assigned to one order by the script:
float(total_free_pages - frag_pct) / total_free_pages, in exact rational
arithmetic.  The quotient is built with Rat.divInt, the executable
construction of an integer quotient, which divInt_eq_cast_div proves equal
to division of the casts on ℚ. -/
def frag_pct (free_pages : List Int) (order : Nat) : ℚ :=
  Rat.divInt (totalFreePages free_pages - pagesAtOrAbove free_pages order)
    (totalFreePages free_pages)

/-- One zone of the result: the inner dict keyed by order, iterated in
ascending order, each value a (free page count, fragmentation ratio) pair. -/
abbrev ZoneFrag := List (Nat × Int × ℚ)

/-- The per-zone computation of _calculate_fragmentation.  The division in
the ratio loop raises ZeroDivisionError exactly when the count list is
nonempty (so the loop body runs) and the total is zero; otherwise every
order is mapped to its count and ratio. -/
def computeZone (free_pages : List Int) : Except PyError ZoneFrag :=
  if free_pages ≠ [] ∧ totalFreePages free_pages = 0 then
    .error .zeroDivisionError
  else
    .ok (free_pages.enum.map (fun oc => (oc.1, oc.2, frag_pct free_pages oc.1)))

/-- node → zone → ZoneFrag, as insertion-ordered association lists. -/
abbrev NodeFrag := List (String × ZoneFrag)

/-- The nested result dict of _calculate_fragmentation. -/
abbrev SysFrag := List (String × NodeFrag)

instance : DecidableEq ZoneFrag := inferInstance

instance : DecidableEq NodeFrag := inferInstance

instance : DecidableEq SysFrag := inferInstance

instance : DecidableEq (Except PyError SysFrag) := inferInstance

/-- Assignment d[k] = v on a dict modelled as an association list whose
keys are distinct: overwrite the value in place if the key is present,
append the pair otherwise.  Iteration order is the list order; the data
model keeps the order in which keys were first inserted. -/
def updAssoc {β : Type} (l : List (String × β)) (k : String) (v : β) :
    List (String × β) :=
  match l with
  | [] => [(k, v)]
  | p :: ps => if p.1 = k then (k, v) :: ps else p :: updAssoc ps k v

/-- Dictionary lookup d.get(k). -/
def lookupAssoc {β : Type} (l : List (String × β)) (k : String) : Option β :=
  match l with
  | [] => none
  | p :: ps => if p.1 = k then some p.2 else lookupAssoc ps k

/-- Lookup of one zone in the nested dict. -/
def lookupZone (d : SysFrag) (node zone : String) : Option ZoneFrag :=
  (lookupAssoc d node).bind (fun nd => lookupAssoc nd zone)

/-- The per-line parsing of _calculate_fragmentation:
node, frag_info = line.split(",") (ValueError unless exactly two fields),
zone = frag_info.split()[1] (IndexError if missing),
free_pages = map(int, frag_info.split()[2:]). -/
def parseLine (cs : List Char) : Except PyError (String × String × List Int) :=
  match splitSep ',' cs with
  | [node, frag_info] =>
    match pySplitWs frag_info with
    | _ :: zone :: rest =>
      (rest.mapM pyInt).map (fun free_pages => (String.mk node, String.mk zone, free_pages))
    | _ => .error .indexError
  | _ => .error .valueError

/-- Processing of one line of buddyinfo output: parse it, compute the zone
fragmentation, and store it under (node, zone), creating the node entry if
needed (frag_dict.setdefault(node, dict()) followed by assignment); an
exception in either stage propagates. -/
def applyLine (d : SysFrag) (cs : List Char) : Except PyError SysFrag :=
  match parseLine cs with
  | .error e => .error e
  | .ok (node, zone, free_pages) =>
    match computeZone free_pages with
    | .error e => .error e
    | .ok zf => .ok (updAssoc d node (updAssoc ((lookupAssoc d node).getD []) zone zf))

/-- The function _calculate_fragmentation(buddyinfo_output): fold the
per-line processing over the input lines, starting from the empty dict; any
exception aborts the whole computation. -/
def _calculate_fragmentation (lines : List String) : Except PyError SysFrag :=
  lines.foldlM (fun d line => applyLine d line.toList) []

/-! ### The formatter, _print_fragmentation

The output is modelled as the string written to the output stream.  Python
float arithmetic on the accumulated percentages is modelled exactly on ℚ.
Because the library addition, multiplication and division on ℚ are marked
irreducible and so do not evaluate inside the kernel, the accumulations
below use executable num/den forms (ratAdd, ratDiv11, rhe); each is proved
equal to the corresponding field operation. -/

/-- Round a fraction n / d (with d positive) to the nearest integer, ties
to even.  This is the rounding performed by Python float formatting with
zero decimal places on the values arising in this development (none of
which sit at a tie of the underlying double). -/
def rhe (n : Int) (d : Int) : Int :=
  let f := n.fdiv d
  let r := n - f * d
  if 2 * r < d then f
  else if d < 2 * r then f + 1
  else if f % 2 = 0 then f else f + 1

/-- Executable rational addition: equal to + on ℚ (ratAdd_eq_add). -/
def ratAdd (a b : ℚ) : ℚ :=
  mkRat (a.num * (b.den : Int) + b.num * (a.den : Int)) (a.den * b.den)

/-- Executable division of a rational by 11: equal to division by 11 on ℚ
(ratDiv11_eq). -/
def ratDiv11 (q : ℚ) : ℚ := mkRat q.num (q.den * 11)

/-- The format conversion applied to each ratio by the script, written
 ":.0%" in the source: multiply by one hundred, round to zero decimal
places, append a percent sign. -/
def pctStr (q : ℚ) : String :=
  toString (rhe (100 * q.num) (q.den : Int)) ++ "%"

/-- The headers local of _print_fragmentation. -/
def headers : List String := ["Order", "Free Pages", "Fragmentation[%]"]

/-- The widths local of _print_fragmentation. -/
def widths : List Nat := [4, 9, 15]

/-- Python str.center(width) with the space fill character: a string no
shorter than the width is returned unchanged; otherwise the margin is
distributed with the extra space decided by the parities of the margin and
the width, as in the CPython implementation, whose left padding is
marg / 2 + (marg AND width AND 1). -/
def pyCenter (s : String) (width : Nat) : String :=
  if width ≤ s.length then s
  else
    let marg := width - s.length
    let left := marg / 2 + (if marg % 2 = 1 ∧ width % 2 = 1 then 1 else 0)
    String.mk (List.replicate left ' ') ++ s ++ String.mk (List.replicate (marg - left) ' ')

/-- The columnize helper of _print_fragmentation: right-justify each cell
to its column content width (a negative difference pads nothing, as in
Python), center the result in the fixed field width, and join the cells
with the separator. -/
def columnize (columns : List String) (max_lens : List Nat) (ws : List Nat)
    (sep : String) : String :=
  String.intercalate sep ((columns.zip (max_lens.zip ws)).map (fun p =>
    pyCenter (String.mk (List.replicate (p.2.1 - p.1.length) ' ') ++ p.1) p.2.2))

/-- The three cell strings of one data row: str(order), str(free_count) and
the percentage rendering of the ratio, as built in the first row loop. -/
def rowCells (e : Nat × Int × ℚ) : List String :=
  [toString e.1, toString e.2.1, pctStr e.2.2]

/-- The max_lens accumulation loop: the largest cell width seen in each of
the three columns across the rows of one zone. -/
def maxLens (zd : ZoneFrag) : List Nat :=
  zd.foldl (fun m e =>
    [max (toString e.1).length (m.getD 0 0),
     max (toString e.2.1).length (m.getD 1 0),
     max (pctStr e.2.2).length (m.getD 2 0)]) [0, 0, 0]

/-- The total_free_pages accumulation of the formatter:
total_free_pages += (2**order) * free_count over the orders present. -/
def zoneTotalFreePages (zd : ZoneFrag) : Int :=
  zd.foldl (fun a e => a + 2 ^ e.1 * e.2.1) 0

/-- The overall_frag_pct accumulation over the orders present. -/
def zoneFragSum (zd : ZoneFrag) : ℚ :=
  zd.foldl (fun a e => ratAdd a e.2.2) 0

/-- overall_frag_pct /= 11: the summed ratios divided by the literal 11,
independent of how many orders are present. -/
def zoneOverallFrag (zd : ZoneFrag) : ℚ :=
  ratDiv11 (zoneFragSum zd)

/-- Everything _print_fragmentation writes for one zone before the footer:
the node and zone header line, the column header row (columns joined with
four spaces), and one data row per order (columns joined with five
spaces). -/
def zoneHeaderAndRows (node zone : String) (zd : ZoneFrag) : String :=
  node ++ ", Zone: " ++ zone ++ "\n"
    ++ columnize headers (headers.map String.length) widths "    " ++ "\n"
    ++ String.join (zd.map (fun e => columnize (rowCells e) (maxLens zd) widths "     " ++ "\n"))

/-- One full zone block as written by _print_fragmentation: header and
rows, the two footer lines, and a trailing blank line. -/
def zoneBlock (node zone : String) (zd : ZoneFrag) : String :=
  zoneHeaderAndRows node zone zd
    ++ "Total Free Pages: " ++ toString (zoneTotalFreePages zd) ++ "\n"
    ++ "Overall Fragmentation: " ++ pctStr (zoneOverallFrag zd) ++ "\n"
    ++ "\n"

/-- The function _print_fragmentation(frag_dict, out), modelled as the
string written to out: one block per (node, zone) pair in order. -/
def _print_fragmentation (d : SysFrag) : String :=
  String.join (d.map (fun nz => String.join (nz.2.map (fun zz => zoneBlock nz.1 zz.1 zz.2))))

/-! ### Specification-side definitions

These definitions restate parts of the specification text in Lean, to be
compared with the definitions embedded from the source. -/

/-- The processing the parser applies to the text after the node label:
discard the first whitespace token, take the second as the zone name, parse
every further token with int.  Used to state how a line decomposes around
its first comma. -/
def parseRemainder (node frag_info : List Char) : Except PyError (String × String × List Int) :=
  match pySplitWs frag_info with
  | _ :: zone :: rest =>
    (rest.mapM pyInt).map (fun free_pages => (String.mk node, String.mk zone, free_pages))
  | _ => .error .indexError

/-- Right-justification of a cell into a column width (a width smaller than
the string pads nothing). -/
def padLeft (s : String) (w : Nat) : String :=
  String.mk (List.replicate (w - s.length) ' ') ++ s

/-- One zone block laid out as the specification words it: a node and zone
header; a column header row with Order, Free Pages and Fragmentation[%]
center-aligned in the fixed widths four, nine and fifteen, joined by four
spaces; one data row per order, each cell first padded to the maximum
content width observed across the rows of that zone, then center-aligned in
the same fixed widths, joined by five spaces, the ratio rendered as a
zero-decimal rounded percentage; the footer lines; and one trailing blank
line. -/
def zoneBlockSpec (node zone : String) (zd : ZoneFrag) : String :=
  node ++ ", Zone: " ++ zone ++ "\n"
    ++ String.intercalate "    "
        [pyCenter "Order" 4, pyCenter "Free Pages" 9, pyCenter "Fragmentation[%]" 15] ++ "\n"
    ++ String.join (zd.map (fun e =>
        String.intercalate "     "
          [pyCenter (padLeft (toString e.1) ((maxLens zd).getD 0 0)) 4,
           pyCenter (padLeft (toString e.2.1) ((maxLens zd).getD 1 0)) 9,
           pyCenter (padLeft (pctStr e.2.2) ((maxLens zd).getD 2 0)) 15] ++ "\n"))
    ++ "Total Free Pages: " ++ toString (zoneTotalFreePages zd) ++ "\n"
    ++ "Overall Fragmentation: " ++ pctStr (zoneOverallFrag zd) ++ "\n"
    ++ "\n"

/-- The weighted page count of a histogram segment whose first element has
the given order: the quantity both enumerate loops of the script
accumulate, written as a structural recursion for proofs. -/
def wsum (k : Nat) : List Int → Int
  | [] => 0
  | c :: cs => 2 ^ k * c + wsum (k + 1) cs

/-! ### Test fixtures from the source file

The two histograms of TestCalculateFragmentation and the frag_dict and
expected_output of TestPrintFragmentation.  The Python dict literal for
Node 1 Normal contains duplicate keys (later entries win), so the resulting
dict holds nine orders; the association lists below list each dict in its
iteration order, which the passing whitespace-sensitive test pins down.
The decimal ratio literals of the source appear here as exact rationals
(mkRat n 1000). -/

/-- Histogram of Node 0 DMA in TestCalculateFragmentation. -/
def fx1 : List Int := [2, 1, 2, 1, 0, 2, 1, 0, 1, 1, 1]

/-- Histogram of Node 0 DMA32 in TestCalculateFragmentation. -/
def fx2 : List Int := [25386, 2028, 87, 18, 4, 1, 0, 1, 1, 0, 0]

/-- The Node 0 DMA inner dict of the frag_dict literal. -/
def zdDma0 : ZoneFrag :=
  [(0, 2, mkRat 0 1000), (1, 1, mkRat 1 1000), (2, 2, mkRat 2 1000),
   (3, 1, mkRat 6 1000), (4, 0, mkRat 10 1000), (5, 2, mkRat 10 1000),
   (6, 1, mkRat 43 1000), (7, 0, mkRat 76 1000), (8, 1, mkRat 76 1000),
   (9, 1, mkRat 208 1000), (10, 1, mkRat 472 1000)]

/-- The Node 0 Normal inner dict of the frag_dict literal. -/
def zdNormal0 : ZoneFrag :=
  [(0, 1345, mkRat 0 1000), (1, 45, mkRat 621 1000), (2, 10, mkRat 663 1000),
   (3, 6, mkRat 681 1000), (4, 0, mkRat 704 1000), (5, 0, mkRat 704 1000),
   (6, 0, mkRat 704 1000), (7, 1, mkRat 704 1000), (8, 0, mkRat 763 1000),
   (9, 1, mkRat 763 1000), (10, 0, mkRat 1000 1000)]

/-- The Node 1 DMA32 inner dict of the frag_dict literal. -/
def zdDma32 : ZoneFrag :=
  [(0, 25386, mkRat 0 1000), (1, 2028, mkRat 834 1000), (2, 87, mkRat 968 1000),
   (3, 18, mkRat 979 1000), (4, 4, mkRat 984 1000), (5, 1, mkRat 986 1000),
   (6, 0, mkRat 987 1000), (7, 1, mkRat 987 1000), (8, 1, mkRat 991 1000),
   (9, 0, mkRat 1000 1000), (10, 0, mkRat 1000 1000)]

/-- The Node 1 Normal inner dict of the frag_dict literal; its Python
source contains duplicate keys, so only nine orders remain. -/
def zdNormal1 : ZoneFrag :=
  [(0, 1345, mkRat 0 1000), (1, 45, mkRat 621 1000), (2, 10, mkRat 663 1000),
   (3, 6, mkRat 681 1000), (4, 0, mkRat 704 1000), (5, 1, mkRat 704 1000),
   (6, 1, mkRat 763 1000), (8, 0, mkRat 763 1000), (10, 0, mkRat 1000 1000)]

/-- The frag_dict literal of TestPrintFragmentation. -/
def fixtureFragDict : SysFrag :=
  [("Node 0", [("DMA", zdDma0), ("Normal", zdNormal0)]),
   ("Node 1", [("DMA32", zdDma32), ("Normal", zdNormal1)])]

/-- Lines of the first block of the expected_output literal of
TestPrintFragmentation, after dedenting; data rows carry trailing
spaces. -/
def fixtureLines1 : List String :=
  ["Node 0, Zone: DMA",
   "Order    Free Pages    Fragmentation[%]",
   "  0          2                0%      ",
   "  1          1                0%      ",
   "  2          2                0%      ",
   "  3          1                1%      ",
   "  4          0                1%      ",
   "  5          2                1%      ",
   "  6          1                4%      ",
   "  7          0                8%      ",
   "  8          1                8%      ",
   "  9          1               21%      ",
   " 10          1               47%      ",
   "Total Free Pages: 1940",
   "Overall Fragmentation: 8%",
   ""]

/-- Lines of the second block of the expected_output literal. -/
def fixtureLines2 : List String :=
  ["Node 0, Zone: Normal",
   "Order    Free Pages    Fragmentation[%]",
   "  0         1345               0%     ",
   "  1           45              62%     ",
   "  2           10              66%     ",
   "  3            6              68%     ",
   "  4            0              70%     ",
   "  5            0              70%     ",
   "  6            0              70%     ",
   "  7            1              70%     ",
   "  8            0              76%     ",
   "  9            1              76%     ",
   " 10            0             100%     ",
   "Total Free Pages: 2163",
   "Overall Fragmentation: 66%",
   ""]

/-- Lines of the third block of the expected_output literal. -/
def fixtureLines3 : List String :=
  ["Node 1, Zone: DMA32",
   "Order    Free Pages    Fragmentation[%]",
   "  0        25386               0%     ",
   "  1         2028              83%     ",
   "  2           87              97%     ",
   "  3           18              98%     ",
   "  4            4              98%     ",
   "  5            1              99%     ",
   "  6            0              99%     ",
   "  7            1              99%     ",
   "  8            1              99%     ",
   "  9            0             100%     ",
   " 10            0             100%     ",
   "Total Free Pages: 30414",
   "Overall Fragmentation: 88%",
   ""]

/-- Lines of the fourth block of the expected_output literal. -/
def fixtureLines4 : List String :=
  ["Node 1, Zone: Normal",
   "Order    Free Pages    Fragmentation[%]",
   "  0         1345               0%     ",
   "  1           45              62%     ",
   "  2           10              66%     ",
   "  3            6              68%     ",
   "  4            0              70%     ",
   "  5            1              70%     ",
   "  6            1              76%     ",
   "  8            0              76%     ",
   " 10            0             100%     ",
   "Total Free Pages: 1619",
   "Overall Fragmentation: 54%",
   ""]

/-- Join a list of lines into the text consisting of each followed by a
newline. -/
def joinLines (ls : List String) : String :=
  String.join (ls.map (fun l => l ++ "\n"))

/-- The full expected_output string of TestPrintFragmentation. -/
def fixtureExpectedOutput : String :=
  joinLines (fixtureLines1 ++ fixtureLines2 ++ fixtureLines3 ++ fixtureLines4)

set_option maxRecDepth 8000 in
theorem zoneBlock_fixture1 : zoneBlock "Node 0" "DMA" zdDma0 = joinLines fixtureLines1 := by
  decide

set_option maxRecDepth 8000 in
theorem zoneBlock_fixture2 : zoneBlock "Node 0" "Normal" zdNormal0 = joinLines fixtureLines2 := by
  decide

set_option maxRecDepth 8000 in
theorem zoneBlock_fixture3 : zoneBlock "Node 1" "DMA32" zdDma32 = joinLines fixtureLines3 := by
  decide

set_option maxRecDepth 8000 in
theorem zoneBlock_fixture4 : zoneBlock "Node 1" "Normal" zdNormal1 = joinLines fixtureLines4 := by
  decide

/-! ### Bridging lemmas between the executable rational operations and the
field operations on ℚ -/

theorem divInt_eq_cast_div (a b : Int) :
    Rat.divInt a b = ((a : ℚ) / (b : ℚ)) := by
  rw [Rat.divInt_eq_div]

theorem ratAdd_eq_add (a b : ℚ) : ratAdd a b = a + b := by
  rw [ratAdd, Rat.mkRat_eq_div]
  conv_rhs => rw [← Rat.num_div_den a, ← Rat.num_div_den b,
    div_add_div _ _ (Nat.cast_ne_zero.mpr a.den_ne_zero) (Nat.cast_ne_zero.mpr b.den_ne_zero)]
  push_cast
  ring_nf

theorem ratDiv11_eq (q : ℚ) : ratDiv11 q = q / 11 := by
  rw [ratDiv11, Rat.mkRat_eq_div]
  conv_rhs => rw [← Rat.num_div_den q]
  rw [div_div]
  push_cast
  ring_nf

/-! ### Claim theorems -/

/-- C8: an empty input yields the empty nested dict without any error, and
formatting the empty dict produces the empty output. -/
theorem c8_empty_input_empty_output :
    _calculate_fragmentation [] = Except.ok [] ∧ _print_fragmentation [] = "" :=
  ⟨rfl, rfl⟩

/-- C2: on the two test histograms the calculator produces total free page
counts 1940 and 30414, and each quoted fragmentation ratio agrees with the
quoted decimal to within 1e-9. -/
theorem c2_numeric_fixtures :
    totalFreePages fx1 = 1940 ∧
    |frag_pct fx1 0 - 0| < 1 / 1000000000 ∧
    |frag_pct fx1 3 - 0.0061855670| < 1 / 1000000000 ∧
    |frag_pct fx1 6 - 0.0432989690| < 1 / 1000000000 ∧
    |frag_pct fx1 10 - 0.4721649484| < 1 / 1000000000 ∧
    totalFreePages fx2 = 30414 ∧
    |frag_pct fx2 1 - 0.8346813967| < 1 / 1000000000 ∧
    |frag_pct fx2 9 - 1| < 1 / 1000000000 := by
  refine ⟨by decide, ?_, ?_, ?_, ?_, by decide, ?_, ?_⟩
  · rw [(by decide : frag_pct fx1 0 = Rat.divInt 0 1940), divInt_eq_cast_div]
    rw [abs_sub_lt_iff]
    constructor <;> norm_num
  · rw [(by decide : frag_pct fx1 3 = Rat.divInt 12 1940), divInt_eq_cast_div]
    rw [abs_sub_lt_iff]
    constructor <;> norm_num
  · rw [(by decide : frag_pct fx1 6 = Rat.divInt 84 1940), divInt_eq_cast_div]
    rw [abs_sub_lt_iff]
    constructor <;> norm_num
  · rw [(by decide : frag_pct fx1 10 = Rat.divInt 916 1940), divInt_eq_cast_div]
    rw [abs_sub_lt_iff]
    constructor <;> norm_num
  · rw [(by decide : frag_pct fx2 1 = Rat.divInt 25386 30414), divInt_eq_cast_div]
    rw [abs_sub_lt_iff]
    constructor <;> norm_num
  · rw [(by decide : frag_pct fx2 9 = Rat.divInt 30414 30414), divInt_eq_cast_div]
    rw [abs_sub_lt_iff]
    constructor <;> norm_num

/-- C5: a zone histogram of the full eleven counts whose total free page
count is zero makes the calculator raise ZeroDivisionError; in particular
an all-zero buddyinfo line aborts the whole computation with that error
rather than producing any output. -/
theorem c5_zero_total_raises :
    (∀ free_pages : List Int, free_pages.length = 11 → totalFreePages free_pages = 0 →
      computeZone free_pages = Except.error PyError.zeroDivisionError) ∧
    _calculate_fragmentation ["Node 0, zone DMA 0 0 0 0 0 0 0 0 0 0 0"] =
      Except.error PyError.zeroDivisionError := by
  constructor
  · intro fp hlen htot
    have hne : fp ≠ [] := by
      intro h
      rw [h] at hlen
      simp at hlen
    unfold computeZone
    rw [if_pos ⟨hne, htot⟩]
  · decide

/-- C5 witness: the all-zero eleven-count histogram hits the error. -/
theorem c5_zero_total_raises_witness :
    computeZone [0, 0, 0, 0, 0, 0, 0, 0, 0, 0, 0] = Except.error PyError.zeroDivisionError :=
  c5_zero_total_raises.1 [0, 0, 0, 0, 0, 0, 0, 0, 0, 0, 0] (by decide) (by decide)

/-- C4 counterexample: a line with only three count tokens does not raise
any error; the computation succeeds and produces an entry with three
orders, refuting the claim that such a line raises a FormatError and
aborts. -/
theorem c4_counterexample :
    _calculate_fragmentation ["Node 0, zone DMA 1 2 3"] =
      Except.ok [("Node 0",
        [("DMA", [(0, 1, Rat.divInt 0 17), (1, 2, Rat.divInt 1 17), (2, 3, Rat.divInt 5 17)])])] := by
  decide

/-- C4 amended: the parser performs no token-count check at all; a
histogram with fewer than eleven counts (empty, or with nonzero total) is
accepted and yields a zone entry with exactly one pair per count token. -/
theorem c4_short_histogram_accepted :
    ∀ free_pages : List Int, free_pages.length < 11 →
    (free_pages = [] ∨ totalFreePages free_pages ≠ 0) →
    ∃ zf : ZoneFrag, computeZone free_pages = Except.ok zf ∧ zf.length = free_pages.length := by
  intro fp _ h
  have hcond : ¬(fp ≠ [] ∧ totalFreePages fp = 0) := by
    rcases h with h | h
    · intro hc
      exact hc.1 h
    · intro hc
      exact h hc.2
  refine ⟨fp.enum.map (fun oc => (oc.1, oc.2, frag_pct fp oc.1)), ?_, ?_⟩
  · unfold computeZone
    rw [if_neg hcond]
  · simp

/-- C4 witness: the three-count histogram of the counterexample line is
accepted with a three-order result. -/
theorem c4_short_histogram_accepted_witness :
    ∃ zf : ZoneFrag, computeZone [1, 2, 3] = Except.ok zf ∧
      zf.length = ([1, 2, 3] : List Int).length :=
  c4_short_histogram_accepted [1, 2, 3] (by decide) (Or.inr (by decide))

/-! ### Lemmas about splitSep, for the comma-splitting claim -/

theorem splitSep_ne_nil (sep : Char) : ∀ cs : List Char, splitSep sep cs ≠ [] := by
  intro cs
  cases cs with
  | nil => simp [splitSep]
  | cons c cs =>
    simp only [splitSep]
    split
    · simp
    · split <;> simp

theorem splitSep_not_mem {sep : Char} : ∀ {cs : List Char}, sep ∉ cs → splitSep sep cs = [cs] := by
  intro cs h
  induction cs with
  | nil => simp [splitSep]
  | cons c cs ih =>
    rw [List.mem_cons] at h
    push_neg at h
    have hc : ¬(c = sep) := fun hh => h.1 hh.symm
    rw [splitSep, if_neg hc, ih h.2]

theorem splitSep_append {sep : Char} : ∀ (n r : List Char), sep ∉ n →
    splitSep sep (n ++ sep :: r) = n :: splitSep sep r := by
  intro n
  induction n with
  | nil =>
    intro r _
    simp [splitSep]
  | cons c n ih =>
    intro r h
    rw [List.mem_cons] at h
    push_neg at h
    have hc : ¬(c = sep) := fun hh => h.1 hh.symm
    rw [List.cons_append, splitSep, if_neg hc, ih r h.2]

theorem splitSep_mem_two {sep : Char} : ∀ {cs : List Char}, sep ∈ cs →
    ∃ a b l, splitSep sep cs = a :: b :: l := by
  intro cs h
  induction cs with
  | nil => simp at h
  | cons c cs ih =>
    by_cases hc : c = sep
    · cases htl : splitSep sep cs with
      | nil => exact absurd htl (splitSep_ne_nil sep cs)
      | cons t ts =>
        refine ⟨[], t, ts, ?_⟩
        rw [splitSep, if_pos hc, htl]
    · have hmem : sep ∈ cs := by
        rcases List.mem_cons.mp h with h1 | h1
        · exact absurd h1.symm hc
        · exact h1
      obtain ⟨a, b, l, heq⟩ := ih hmem
      refine ⟨c :: a, b, l, ?_⟩
      rw [splitSep, if_neg hc, heq]

/-- C9 counterexample: a line whose remainder after the node label contains
a second comma is not parsed at all; the parser raises ValueError, although
splitting at the first comma alone would have parsed the very same line, as
the second conjunct shows. -/
theorem c9_counterexample :
    _calculate_fragmentation ["Node 0, zone DMA,x 1 2"] = Except.error PyError.valueError ∧
    parseRemainder "Node 0".toList " zone DMA,x 1 2".toList =
      Except.ok ("Node 0", "DMA,x", [1, 2]) := by
  constructor
  · decide
  · decide

/-- C9 amended: a line with exactly one comma is split there into node
label and remainder, which is processed as the remainder of the line; but a
line whose remainder contains additional commas raises ValueError (the
two-element unpacking of the split fails), aborting instead of parsing. -/
theorem c9_first_comma_split :
    (∀ node rest : List Char, ',' ∉ node → ',' ∉ rest →
      parseLine (node ++ ',' :: rest) = parseRemainder node rest) ∧
    (∀ node rest : List Char, ',' ∉ node → ',' ∈ rest →
      parseLine (node ++ ',' :: rest) = Except.error PyError.valueError) := by
  constructor
  · intro n r hn hr
    simp only [parseLine, splitSep_append n r hn, splitSep_not_mem hr]
    rfl
  · intro n r hn hr
    obtain ⟨a, b, l, heq⟩ := splitSep_mem_two hr
    simp only [parseLine, splitSep_append n r hn, heq]

/-- C9 witness: the single-comma split and the multi-comma failure on
concrete lines. -/
theorem c9_first_comma_split_witness :
    parseLine ("Node 0".toList ++ ',' :: " zone DMA 1 2".toList) =
      parseRemainder "Node 0".toList " zone DMA 1 2".toList ∧
    parseLine ("Node 0".toList ++ ',' :: " zone DMA,x 1 2".toList) =
      Except.error PyError.valueError :=
  ⟨c9_first_comma_split.1 "Node 0".toList " zone DMA 1 2".toList (by decide) (by decide),
   c9_first_comma_split.2 "Node 0".toList " zone DMA,x 1 2".toList (by decide) (by decide)⟩

/-! ### Lemmas about the nested dict updates, for the overwrite claim -/

theorem lookupAssoc_updAssoc_self {β : Type} (l : List (String × β)) (k : String) (v : β) :
    lookupAssoc (updAssoc l k v) k = some v := by
  induction l with
  | nil => simp [updAssoc, lookupAssoc]
  | cons p ps ih =>
    by_cases h : p.1 = k
    · simp [updAssoc, h, lookupAssoc]
    · simp [updAssoc, h, lookupAssoc, ih]

theorem lookupAssoc_updAssoc_ne {β : Type} (l : List (String × β)) (k k2 : String) (v : β)
    (h : k2 ≠ k) : lookupAssoc (updAssoc l k v) k2 = lookupAssoc l k2 := by
  induction l with
  | nil => simp [updAssoc, lookupAssoc, Ne.symm h]
  | cons p ps ih =>
    by_cases hp : p.1 = k
    · have hp2 : ¬(p.1 = k2) := by
        rw [hp]
        exact Ne.symm h
      simp [updAssoc, hp, lookupAssoc, Ne.symm h, hp2]
    · by_cases hq : p.1 = k2
      · simp [updAssoc, hp, lookupAssoc, hq, h]
      · simp [updAssoc, hp, lookupAssoc, hq, ih]

theorem except_error_bind {ε α β : Type} (e : ε) (f : α → Except ε β) :
    (Except.error e >>= f) = (Except.error e : Except ε β) := rfl

theorem except_ok_bind {ε α β : Type} (a : α) (f : α → Except ε β) :
    (Except.ok a >>= f) = f a := rfl

theorem applyLine_ok_eq {d : SysFrag} {cs : List Char} {n z : String} {fp : List Int}
    {zf : ZoneFrag} (hp : parseLine cs = Except.ok (n, z, fp))
    (hz : computeZone fp = Except.ok zf) :
    applyLine d cs = Except.ok (updAssoc d n (updAssoc ((lookupAssoc d n).getD []) z zf)) := by
  simp [applyLine, hp, hz]

theorem applyLine_ok_inv {d d1 : SysFrag} {cs : List Char}
    (h : applyLine d cs = Except.ok d1) :
    ∃ n z fp zf, parseLine cs = Except.ok (n, z, fp) ∧ computeZone fp = Except.ok zf ∧
      d1 = updAssoc d n (updAssoc ((lookupAssoc d n).getD []) z zf) := by
  cases hp : parseLine cs with
  | error e => simp [applyLine, hp] at h
  | ok t =>
    obtain ⟨n, z, fp⟩ := t
    cases hz : computeZone fp with
    | error e => simp [applyLine, hp, hz] at h
    | ok zf =>
      rw [applyLine_ok_eq hp hz] at h
      exact ⟨n, z, fp, zf, rfl, hz, (Except.ok.inj h).symm⟩

theorem lookupZone_applyLine_self {d d' : SysFrag} {cs : List Char} {n z : String}
    {fp : List Int} {zf : ZoneFrag} (hp : parseLine cs = Except.ok (n, z, fp))
    (hz : computeZone fp = Except.ok zf) (hd : applyLine d cs = Except.ok d') :
    lookupZone d' n z = some zf := by
  rw [applyLine_ok_eq hp hz] at hd
  obtain rfl := Except.ok.inj hd
  simp [lookupZone, lookupAssoc_updAssoc_self]

theorem lookupZone_applyLine_other {d d' : SysFrag} {cs : List Char} {n2 z2 : String}
    {fp : List Int} {zf : ZoneFrag} (n z : String)
    (hp : parseLine cs = Except.ok (n2, z2, fp)) (hz : computeZone fp = Except.ok zf)
    (hne : ¬(n2 = n ∧ z2 = z)) (hd : applyLine d cs = Except.ok d') :
    lookupZone d' n z = lookupZone d n z := by
  rw [applyLine_ok_eq hp hz] at hd
  obtain rfl := Except.ok.inj hd
  by_cases hn : n2 = n
  · subst hn
    have hz2 : z ≠ z2 := by
      intro hh
      exact hne ⟨rfl, hh.symm⟩
    rw [lookupZone, lookupZone, lookupAssoc_updAssoc_self]
    cases hnd : lookupAssoc d n2 with
    | none =>
      simp [hnd, lookupAssoc, updAssoc, Ne.symm hz2]
    | some nd =>
      simp [hnd, lookupAssoc_updAssoc_ne _ _ _ _ hz2]
  · rw [lookupZone, lookupZone, lookupAssoc_updAssoc_ne _ _ _ _ (fun hh => hn hh.symm)]

theorem foldlM_lookupZone_untouched :
    ∀ (ls : List String) (d d' : SysFrag) (n z : String),
      ls.foldlM (fun d line => applyLine d line.toList) d = Except.ok d' →
      (∀ l ∈ ls, ∀ n2 z2 fp2, parseLine l.toList = Except.ok (n2, z2, fp2) →
        ¬(n2 = n ∧ z2 = z)) →
      lookupZone d' n z = lookupZone d n z := by
  intro ls
  induction ls with
  | nil =>
    intro d d' n z h _
    rw [List.foldlM_nil] at h
    obtain rfl := Except.ok.inj h
    rfl
  | cons l ls ih =>
    intro d d' n z h hno
    rw [List.foldlM_cons] at h
    cases hstep : applyLine d l.toList with
    | error e =>
      rw [hstep, except_error_bind] at h
      exact absurd h (by intro hh; cases hh)
    | ok d1 =>
      rw [hstep, except_ok_bind] at h
      obtain ⟨n2, z2, fp2, zf2, hp2, hz2, _⟩ := applyLine_ok_inv hstep
      calc lookupZone d' n z
          = lookupZone d1 n z := ih d1 d' n z h (fun l2 hl2 => hno l2 (List.mem_cons_of_mem l hl2))
        _ = lookupZone d n z :=
            lookupZone_applyLine_other n z hp2 hz2
              (hno l (List.mem_cons_self l ls) n2 z2 fp2 hp2) hstep

/-- C10: within one run, when the same node and zone pair occurs on several
lines, the final dict holds the entry computed from the last such line:
after the input is decomposed around that line, the lines after it leave
the entry unchanged, and the line itself stores exactly its own computation
while preserving the entries of every other zone of the same node. -/
theorem c10_last_line_wins :
    (∀ (pre post : List String) (line : String) (d' : SysFrag) (node zone : String)
      (fp : List Int) (zf : ZoneFrag),
      parseLine line.toList = Except.ok (node, zone, fp) →
      computeZone fp = Except.ok zf →
      _calculate_fragmentation (pre ++ line :: post) = Except.ok d' →
      (∀ l ∈ post, ∀ n2 z2 fp2, parseLine l.toList = Except.ok (n2, z2, fp2) →
        ¬(n2 = node ∧ z2 = zone)) →
      lookupZone d' node zone = some zf) ∧
    (∀ (d d' : SysFrag) (cs : List Char) (node zone z2 : String) (fp : List Int)
      (zf : ZoneFrag),
      parseLine cs = Except.ok (node, zone, fp) →
      computeZone fp = Except.ok zf →
      applyLine d cs = Except.ok d' →
      z2 ≠ zone →
      lookupZone d' node z2 = lookupZone d node z2) := by
  constructor
  · intro pre post line d' node zone fp zf hp hz hcalc hno
    rw [_calculate_fragmentation, List.foldlM_append] at hcalc
    cases hpre : pre.foldlM (fun d line => applyLine d line.toList) ([] : SysFrag) with
    | error e =>
      rw [hpre, except_error_bind] at hcalc
      exact absurd hcalc (by intro hh; cases hh)
    | ok d0 =>
      rw [hpre, except_ok_bind, List.foldlM_cons] at hcalc
      cases hstep : applyLine d0 line.toList with
      | error e =>
        rw [hstep, except_error_bind] at hcalc
        exact absurd hcalc (by intro hh; cases hh)
      | ok d1 =>
        rw [hstep, except_ok_bind] at hcalc
        have huntouched : lookupZone d' node zone = lookupZone d1 node zone :=
          foldlM_lookupZone_untouched post d1 d' node zone hcalc hno
        rw [huntouched]
        exact lookupZone_applyLine_self hp hz hstep
  · intro d d' cs node zone z2 fp zf hp hz hd hne
    exact lookupZone_applyLine_other node z2 hp hz (fun hh => hne (hh.2.symm ▸ rfl)) hd

/-- C10 witness: the later DMA line stores its own entry and preserves the
previously recorded Normal zone of the same node. -/
theorem c10_last_line_wins_witness :
    lookupZone [("Node 0", [("Normal", [(0, 1, Rat.divInt 0 1)]), ("DMA", [(0, 4, Rat.divInt 0 4)])])]
      "Node 0" "DMA" = some [(0, 4, Rat.divInt 0 4)] ∧
    lookupZone [("Node 0", [("Normal", [(0, 1, Rat.divInt 0 1)]), ("DMA", [(0, 4, Rat.divInt 0 4)])])]
      "Node 0" "Normal" =
      lookupZone [("Node 0", [("Normal", [(0, 1, Rat.divInt 0 1)])])] "Node 0" "Normal" := by
  constructor
  · exact c10_last_line_wins.1 ["Node 0, zone Normal 1"] [] "Node 0, zone DMA 4"
      [("Node 0", [("Normal", [(0, 1, Rat.divInt 0 1)]), ("DMA", [(0, 4, Rat.divInt 0 4)])])]
      "Node 0" "DMA" [4] [(0, 4, Rat.divInt 0 4)] (by decide) (by decide) (by decide)
      (by intro l hl; simp at hl)
  · exact c10_last_line_wins.2 [("Node 0", [("Normal", [(0, 1, Rat.divInt 0 1)])])]
      [("Node 0", [("Normal", [(0, 1, Rat.divInt 0 1)]), ("DMA", [(0, 4, Rat.divInt 0 4)])])]
      "Node 0, zone DMA 4".toList "Node 0" "DMA" "Normal" [4] [(0, 4, Rat.divInt 0 4)]
      (by decide) (by decide) (by decide) (by decide)

/-! ### Lemmas about the formatter accumulations -/

theorem foldl_add_eq {M : Type} [AddCommMonoid M] {γ : Type} (g : γ → M) :
    ∀ (l : List γ) (a : M), l.foldl (fun acc e => acc + g e) a = a + (l.map g).sum
  | [], a => by simp
  | x :: xs, a => by
    simp only [List.foldl_cons, List.map_cons, List.sum_cons]
    rw [foldl_add_eq g xs]
    rw [add_assoc]

theorem zoneTotalFreePages_eq (zd : ZoneFrag) :
    zoneTotalFreePages zd = (zd.map (fun e => 2 ^ e.1 * e.2.1)).sum := by
  rw [zoneTotalFreePages, foldl_add_eq (fun (e : Nat × Int × ℚ) => 2 ^ e.1 * e.2.1) zd 0,
    zero_add]

theorem zoneFragSum_eq (zd : ZoneFrag) : zoneFragSum zd = (zd.map (fun e => e.2.2)).sum := by
  rw [zoneFragSum]
  have hfun : (fun (a : ℚ) (e : Nat × Int × ℚ) => ratAdd a e.2.2)
      = (fun (a : ℚ) (e : Nat × Int × ℚ) => a + e.2.2) := by
    funext a e
    exact ratAdd_eq_add a e.2.2
  rw [hfun, foldl_add_eq (fun (e : Nat × Int × ℚ) => e.2.2) zd 0, zero_add]

theorem zoneOverallFrag_eq (zd : ZoneFrag) :
    zoneOverallFrag zd = (zd.map (fun e => e.2.2)).sum / 11 := by
  rw [zoneOverallFrag, ratDiv11_eq, zoneFragSum_eq]

/-- C6: the footer of every zone block shows the integer sum of
2^order * count over exactly the orders present in that zone, and the
overall fragmentation is the sum of the per-order ratios divided by the
literal eleven regardless of how many entries are present, both rendered
after the header and rows. -/
theorem c6_footer_totals :
    ∀ (node zone : String) (zd : ZoneFrag),
      zoneBlock node zone zd =
        zoneHeaderAndRows node zone zd
          ++ "Total Free Pages: " ++ toString ((zd.map (fun e => 2 ^ e.1 * e.2.1)).sum) ++ "\n"
          ++ "Overall Fragmentation: " ++ pctStr ((zd.map (fun e => e.2.2)).sum / 11) ++ "\n"
          ++ "\n" := by
  intro node zone zd
  rw [zoneBlock, zoneTotalFreePages_eq, zoneOverallFrag_eq]

/-! ### Lemmas for the layout claim -/

theorem foldl_maxLens_shape :
    ∀ (zd : ZoneFrag) (a b c : Nat), ∃ m1 m2 m3,
      zd.foldl (fun m e =>
        [max (toString e.1).length (m.getD 0 0),
         max (toString e.2.1).length (m.getD 1 0),
         max (pctStr e.2.2).length (m.getD 2 0)]) [a, b, c] = [m1, m2, m3]
  | [], a, b, c => ⟨a, b, c, rfl⟩
  | e :: zd, a, b, c => by
    rw [List.foldl_cons]
    exact foldl_maxLens_shape zd _ _ _

theorem maxLens_shape (zd : ZoneFrag) : ∃ m1 m2 m3, maxLens zd = [m1, m2, m3] :=
  foldl_maxLens_shape zd 0 0 0

theorem columnize_three (a b c : String) (m1 m2 m3 w1 w2 w3 : Nat) (sep : String) :
    columnize [a, b, c] [m1, m2, m3] [w1, w2, w3] sep =
      String.intercalate sep
        [pyCenter (padLeft a m1) w1, pyCenter (padLeft b m2) w2, pyCenter (padLeft c m3) w3] :=
  rfl

theorem zoneBlock_eq_spec (node zone : String) (zd : ZoneFrag) :
    zoneBlock node zone zd = zoneBlockSpec node zone zd := by
  obtain ⟨m1, m2, m3, hm⟩ := maxLens_shape zd
  have hheader : columnize headers (headers.map String.length) widths "    " =
      String.intercalate "    "
        [pyCenter "Order" 4, pyCenter "Free Pages" 9, pyCenter "Fragmentation[%]" 15] := by
    decide
  have hrow : ∀ e : Nat × Int × ℚ,
      columnize (rowCells e) (maxLens zd) widths "     " =
        String.intercalate "     "
          [pyCenter (padLeft (toString e.1) ((maxLens zd).getD 0 0)) 4,
           pyCenter (padLeft (toString e.2.1) ((maxLens zd).getD 1 0)) 9,
           pyCenter (padLeft (pctStr e.2.2) ((maxLens zd).getD 2 0)) 15] := by
    intro e
    rw [hm, rowCells, widths, columnize_three]
    simp [List.getD]
  rw [zoneBlock, zoneBlockSpec, zoneHeaderAndRows, hheader]
  have hrows : zd.map (fun e => columnize (rowCells e) (maxLens zd) widths "     " ++ "\n") =
      zd.map (fun e =>
        String.intercalate "     "
          [pyCenter (padLeft (toString e.1) ((maxLens zd).getD 0 0)) 4,
           pyCenter (padLeft (toString e.2.1) ((maxLens zd).getD 1 0)) 9,
           pyCenter (padLeft (pctStr e.2.2) ((maxLens zd).getD 2 0)) 15] ++ "\n") := by
    apply List.map_congr_left
    intro e _
    rw [hrow e]
  rw [hrows]

/-! ### Lemmas about the weighted page sums of the calculator -/

theorem enumFrom_foldl_wsum (k : Nat) :
    ∀ (l : List Int) (n : Nat) (a : Int),
      (List.enumFrom n l).foldl (fun acc oc => acc + 2 ^ (oc.1 + k) * oc.2) a
        = a + wsum (n + k) l := by
  intro l
  induction l with
  | nil =>
    intro n a
    simp [wsum, List.enumFrom]
  | cons c cs ih =>
    intro n a
    simp only [List.enumFrom, List.foldl_cons]
    rw [ih]
    have hnk : n + 1 + k = n + k + 1 := by omega
    rw [hnk, wsum, add_assoc]

theorem totalFreePages_eq_wsum (fp : List Int) : totalFreePages fp = wsum 0 fp := by
  have hfun : (fun (acc : Int) (oc : Nat × Int) => acc + 2 ^ oc.1 * oc.2)
      = (fun (acc : Int) (oc : Nat × Int) => acc + 2 ^ (oc.1 + 0) * oc.2) := by
    funext acc oc
    rw [Nat.add_zero]
  rw [totalFreePages, List.enum, hfun, enumFrom_foldl_wsum 0 fp 0 0, zero_add]

theorem pagesAtOrAbove_eq_wsum (fp : List Int) (o : Nat) :
    pagesAtOrAbove fp o = wsum o (fp.drop o) := by
  rw [pagesAtOrAbove, List.enum, enumFrom_foldl_wsum o (fp.drop o) 0 0, zero_add, Nat.zero_add]

theorem wsum_nonneg : ∀ (l : List Int), (∀ c ∈ l, 0 ≤ c) → ∀ k : Nat, 0 ≤ wsum k l
  | [], _, _ => le_refl 0
  | c :: cs, h, k => by
    rw [wsum]
    have h1 : 0 ≤ c := h c (List.mem_cons_self c cs)
    have h2 := wsum_nonneg cs (fun x hx => h x (List.mem_cons_of_mem c hx)) (k + 1)
    exact add_nonneg (mul_nonneg (pow_nonneg (by norm_num) k) h1) h2

theorem wsum_drop_succ (fp : List Int) (o : Nat) (h : o < fp.length) :
    wsum o (fp.drop o) = 2 ^ o * fp.getD o 0 + wsum (o + 1) (fp.drop (o + 1)) := by
  conv_lhs => rw [List.drop_eq_getElem_cons h]
  rw [wsum, List.getD_eq_getElem fp 0 h]

theorem wsum_drop_succ_le (fp : List Int) (o : Nat) (h : o < fp.length)
    (hc : ∀ c ∈ fp, 0 ≤ c) :
    wsum (o + 1) (fp.drop (o + 1)) ≤ wsum o (fp.drop o) := by
  rw [wsum_drop_succ fp o h]
  have h1 : 0 ≤ fp.getD o 0 := by
    rw [List.getD_eq_getElem fp 0 h]
    exact hc _ (List.getElem_mem h)
  have h2 : 0 ≤ 2 ^ o * fp.getD o 0 :=
    mul_nonneg (pow_nonneg (by norm_num) o) h1
  omega

theorem wsum_drop_le_total (fp : List Int) (hc : ∀ c ∈ fp, 0 ≤ c) :
    ∀ o : Nat, o ≤ fp.length → wsum o (fp.drop o) ≤ wsum 0 (fp.drop 0) := by
  intro o
  induction o with
  | zero => intro _; exact le_refl _
  | succ o ih =>
    intro h
    have ho : o < fp.length := by omega
    exact le_trans (wsum_drop_succ_le fp o ho hc) (ih (by omega))

theorem wsum_eq_sum_range (l : List Int) :
    ∀ k : Nat, wsum k l = ∑ i ∈ Finset.range l.length, 2 ^ (k + i) * l.getD i 0 := by
  induction l with
  | nil =>
    intro k
    simp [wsum]
  | cons c cs ih =>
    intro k
    rw [wsum, ih (k + 1), List.length_cons, Finset.sum_range_succ']
    have hsum : (∑ i ∈ Finset.range cs.length, 2 ^ (k + 1 + i) * cs.getD i 0)
        = ∑ i ∈ Finset.range cs.length, 2 ^ (k + (i + 1)) * (c :: cs).getD (i + 1) 0 := by
      apply Finset.sum_congr rfl
      intro i _
      rw [List.getD_cons_succ]
      congr 2
      omega
    rw [hsum, List.getD_cons_zero, Nat.add_zero, add_comm]

theorem pagesAtOrAbove_eq_sum_Icc (fp : List Int) (o : Nat) (hlen : fp.length = 11)
    (ho : o < 11) :
    pagesAtOrAbove fp o = ∑ i ∈ Finset.Icc o 10, 2 ^ i * fp.getD i 0 := by
  rw [pagesAtOrAbove_eq_wsum, wsum_eq_sum_range, List.length_drop, hlen]
  rw [← Nat.Ico_succ_right, Finset.sum_Ico_eq_sum_range]
  apply Finset.sum_congr rfl
  intro i hi
  have hi2 : i < 11 - o := Finset.mem_range.mp hi
  have h1 : i < (fp.drop o).length := by
    rw [List.length_drop, hlen]
    omega
  have h2 : o + i < fp.length := by
    rw [hlen]
    omega
  rw [List.getD_eq_getElem _ 0 h1, List.getD_eq_getElem _ 0 h2, List.getElem_drop]

/-- C3: for every eleven-count histogram with nonnegative counts and a
positive total, the fragmentation ratios are nondecreasing in the order,
the ratio at order zero is zero, and every ratio lies in the closed
interval from zero to one. -/
theorem c3_ratio_monotone_bounded :
    ∀ free_pages : List Int, free_pages.length = 11 → (∀ c ∈ free_pages, 0 ≤ c) →
    0 < totalFreePages free_pages →
    (∀ o : Nat, o < 10 → frag_pct free_pages o ≤ frag_pct free_pages (o + 1)) ∧
    frag_pct free_pages 0 = 0 ∧
    (∀ o : Nat, o ≤ 10 → 0 ≤ frag_pct free_pages o ∧ frag_pct free_pages o ≤ 1) := by
  intro fp hlen hc hT
  have hT0 : wsum 0 (fp.drop 0) = totalFreePages fp := by
    rw [List.drop_zero, ← totalFreePages_eq_wsum]
  have hTQ : (0 : ℚ) < ((totalFreePages fp : Int) : ℚ) := by
    exact_mod_cast hT
  have hrq : ∀ o : Nat, frag_pct fp o =
      ((totalFreePages fp - wsum o (fp.drop o) : Int) : ℚ)
        / ((totalFreePages fp : Int) : ℚ) := by
    intro o
    rw [frag_pct, divInt_eq_cast_div, pagesAtOrAbove_eq_wsum]
  have hSle : ∀ o : Nat, o ≤ 10 → wsum o (fp.drop o) ≤ totalFreePages fp := by
    intro o ho
    rw [← hT0]
    exact wsum_drop_le_total fp hc o (by rw [hlen]; omega)
  have hS0 : ∀ o : Nat, 0 ≤ wsum o (fp.drop o) := fun o =>
    wsum_nonneg (fp.drop o) (fun x hx => hc x (List.drop_subset o fp hx)) o
  refine ⟨?_, ?_, ?_⟩
  · intro o ho
    rw [hrq o, hrq (o + 1), div_le_div_iff_of_pos_right hTQ]
    have hstep := wsum_drop_succ_le fp o (by rw [hlen]; omega) hc
    exact_mod_cast sub_le_sub_left hstep (totalFreePages fp)
  · rw [hrq 0, hT0, sub_self, Int.cast_zero, zero_div]
  · intro o ho
    constructor
    · rw [hrq o]
      apply div_nonneg _ (le_of_lt hTQ)
      have h0 : (0 : Int) ≤ totalFreePages fp - wsum o (fp.drop o) := by
        have := hSle o ho
        omega
      exact_mod_cast h0
    · rw [hrq o, div_le_one hTQ]
      have h1 : totalFreePages fp - wsum o (fp.drop o) ≤ totalFreePages fp := by
        have := hS0 o
        omega
      exact_mod_cast h1

/-- C3 witness: the first fixture histogram satisfies the hypotheses, and
its order-zero ratio is zero. -/
theorem c3_ratio_monotone_bounded_witness : frag_pct fx1 0 = 0 :=
  (c3_ratio_monotone_bounded fx1 (by decide) (by decide) (by decide)).2.1

/-- C1: for every eleven-count histogram with nonnegative counts and a
positive total, the total free page count is the weighted sum of the
counts over orders zero to ten, and the calculator succeeds with one entry
per order holding the raw count alongside the ratio
(total - pages at or above the order) / total, with the numerator sum taken
over orders o to ten. -/
theorem c1_fragmentation_formula :
    ∀ free_pages : List Int, free_pages.length = 11 → (∀ c ∈ free_pages, 0 ≤ c) →
    0 < totalFreePages free_pages →
    totalFreePages free_pages = ∑ i ∈ Finset.range 11, 2 ^ i * free_pages.getD i 0 ∧
    ∃ zf : ZoneFrag, computeZone free_pages = Except.ok zf ∧ zf.length = 11 ∧
      ∀ o : Nat, o < 11 →
        zf.getD o (0, 0, 0) =
          (o, free_pages.getD o 0,
            ((totalFreePages free_pages
                - ∑ i ∈ Finset.Icc o 10, 2 ^ i * free_pages.getD i 0 : Int) : ℚ)
              / ((totalFreePages free_pages : Int) : ℚ)) := by
  intro fp hlen hc hT
  have htotal : totalFreePages fp = ∑ i ∈ Finset.range 11, 2 ^ i * fp.getD i 0 := by
    rw [totalFreePages_eq_wsum, wsum_eq_sum_range, hlen]
    apply Finset.sum_congr rfl
    intro i _
    rw [Nat.zero_add]
  have hne : ¬(fp ≠ [] ∧ totalFreePages fp = 0) := by
    intro hcond
    have := hcond.2
    omega
  refine ⟨htotal, fp.enum.map (fun oc => (oc.1, oc.2, frag_pct fp oc.1)), ?_, ?_, ?_⟩
  · unfold computeZone
    rw [if_neg hne]
  · simp [hlen]
  · intro o ho
    have ho2 : o < fp.enum.length := by
      rw [List.enum_length, hlen]
      omega
    have ho3 : o < (fp.enum.map (fun oc => (oc.1, oc.2, frag_pct fp oc.1))).length := by
      rw [List.length_map]
      exact ho2
    have hgo : o < fp.length := by
      rw [hlen]
      omega
    rw [List.getD_eq_getElem _ _ ho3, List.getElem_map, List.getElem_enum,
      frag_pct, divInt_eq_cast_div, pagesAtOrAbove_eq_sum_Icc fp o hlen ho,
      List.getD_eq_getElem fp 0 hgo]

/-- C1 witness: the first fixture histogram satisfies the hypotheses, and
its total equals the order-weighted sum. -/
theorem c1_fragmentation_formula_witness :
    totalFreePages fx1 = ∑ i ∈ Finset.range 11, 2 ^ i * fx1.getD i 0 :=
  (c1_fragmentation_formula fx1 (by decide) (by decide) (by decide)).1

/-- C7: every zone block is rendered exactly as the layout contract words
it (header line, column header row in fixed widths four, nine and fifteen
joined by four spaces, one data row per order padded to the observed
content widths and centered in the fixed widths joined by five spaces with
zero-decimal rounded percentages, and a trailing blank line), and on the
known-good fixture the full output matches the expected text byte for
byte. -/
theorem c7_formatter_layout :
    (∀ (node zone : String) (zd : ZoneFrag), zoneBlock node zone zd = zoneBlockSpec node zone zd) ∧
    _print_fragmentation fixtureFragDict = fixtureExpectedOutput := by
  constructor
  · exact zoneBlock_eq_spec
  · simp [_print_fragmentation, fixtureFragDict, zoneBlock_fixture1, zoneBlock_fixture2,
      zoneBlock_fixture3, zoneBlock_fixture4, fixtureExpectedOutput, joinLines, String.join,
      fixtureLines1, fixtureLines2, fixtureLines3, fixtureLines4]

end FragLevelInfo
